import Mathlib

/-!
Verification of the lchliebedich lexicon engine
(`src/wordlib/lchliebedich_engine.py`, `src/wordlib/manager.py`).

The Python code is shallowly embedded as executable Lean definitions:

* Python strings are `String` / `List Char` (Python indexes and slices by
  code points, exactly as `String.data` does);
* the engine object's mutable fields (`global_variables`,
  `message_context`) become an explicit `EngineState` value threaded
  through every function;
* Python dictionaries holding string keys/values become association
  lists with first-key-wins lookup and in-place update;
* `datetime.now()` / `time.time()` / `json.dumps(context)` results are
  abstract environment fields of `EngineState` (the claims never touch
  them);
* Python `float` values arising from `float(str)` are modelled as exact
  rationals over plain decimal numerals (sign, digits, optional
  fractional part); exotic spellings (`inf`, `nan`, exponents,
  underscores) are outside the modelled fragment;
* a raised exception is modelled as an explicit error outcome
  (`FuncOutcome.err`), and the `try/except` in `_call_function` as the
  match that turns it into the empty string;
* `re.compile` / `re.search` are modelled for the pattern fragment the
  lexicon triggers of the claims use: plain literal characters and
  `(.*)` capture groups, compiled with `IGNORECASE` (literals compare
  case-insensitively), searched with Python's leftmost-position,
  greedy-with-backtracking semantics; any other regex metacharacter is
  outside the fragment and maps to a compile failure.
-/

namespace Lch

/-! ## Python string primitives -/

/-- Whitespace set of Python `str.strip` / `str.split()`. -/
def isPySpace (c : Char) : Bool :=
  c = ' ' || c = '\t' || c = '\n' || c = '\r' || c = '\x0b' || c = '\x0c'

/-- Python `str.strip()`: drop whitespace from both ends. -/
def pyStrip (s : String) : String :=
  String.mk (((s.data.dropWhile isPySpace).reverse.dropWhile isPySpace).reverse)

/-- Python `str.startswith`. -/
def pyStartsWith (s pre : String) : Bool :=
  pre.data.isPrefixOf s.data

/-- Python `'\n'.join`. -/
def joinNL : List String → String
  | [] => ""
  | [s] => s
  | s :: rest => s ++ "\n" ++ joinNL rest

/-- Python `s.split(sep, 1)` when `sep` occurs in `s`: split at the first
occurrence of `sep`, returning the parts before and after it.  `none`
models `sep not in s`. -/
def splitFirstAux (sep : List Char) : List Char → Option (List Char × List Char)
  | [] => none
  | c :: rest =>
    if sep.isPrefixOf (c :: rest) then some ([], (c :: rest).drop sep.length)
    else (splitFirstAux sep rest).map (fun p => (c :: p.1, p.2))

/-- String wrapper for `splitFirstAux`; `(splitFirst sep s).isSome` is
Python's `sep in s`. -/
def splitFirst (sep s : String) : Option (String × String) :=
  (splitFirstAux sep.data s.data).map (fun p => (String.mk p.1, String.mk p.2))

/-- Python `s.split(c)` for a single-character separator (all occurrences,
empty parts kept). -/
def splitAllChar (sep : Char) (acc : List Char) : List Char → List (List Char)
  | [] => [acc.reverse]
  | c :: rest =>
    if c = sep then acc.reverse :: splitAllChar sep [] rest
    else splitAllChar sep (c :: acc) rest

/-- Python `s.split()`: split on whitespace runs, discarding empty parts. -/
def pySplitWsAux (acc : List Char) : List Char → List String
  | [] => if acc.isEmpty then [] else [String.mk acc.reverse]
  | c :: rest =>
    if isPySpace c then
      if acc.isEmpty then pySplitWsAux [] rest
      else String.mk acc.reverse :: pySplitWsAux [] rest
    else pySplitWsAux (c :: acc) rest

/-- Python `s.split()` on a `String`. -/
def pySplitWs (s : String) : List String :=
  pySplitWsAux [] s.data

/-- Python `str.lower()` (ASCII fragment, which is all the engine compares). -/
def pyLower (s : String) : String :=
  String.mk (s.data.map Char.toLower)

/-- Value of a decimal digit string. -/
def digitsToNat (cs : List Char) : Nat :=
  cs.foldl (fun n c => 10 * n + (c.toNat - 48)) 0

/-- Python `float(s)` on plain decimal numerals, as an exact rational:
optional sign, then digits with an optional fractional part (at least one
digit overall).  Any other shape is `none`, modelling `ValueError`. -/
def parseFloatCore (cs : List Char) : Option ℚ :=
  let intPart := cs.takeWhile Char.isDigit
  let rest := cs.dropWhile Char.isDigit
  match rest with
  | [] => if intPart.isEmpty then none else some ((digitsToNat intPart : ℚ))
  | '.' :: frac =>
    if frac.all Char.isDigit && !(intPart.isEmpty && frac.isEmpty) then
      some ((digitsToNat intPart : ℚ) + (digitsToNat frac : ℚ) / ((10 : ℚ) ^ frac.length))
    else none
  | _ => none

/-- `float(s)` including an optional leading sign. -/
def parseFloat (s : String) : Option ℚ :=
  match s.data with
  | '+' :: rest => parseFloatCore rest
  | '-' :: rest => (parseFloatCore rest).map (fun q => -q)
  | l => parseFloatCore l

/-! ## Engine state

The `LchliebedichEngine` object's mutable dictionaries, plus abstract
fields standing for the wall clock and the JSON dump of the context that
`_get_variable_value` can read (never written by the engine). -/

/-- Association-list lookup: first binding of the key, as in a Python dict. -/
def lookupVar (l : List (String × String)) (k : String) : Option String :=
  (l.find? (fun p => p.1 == k)).map (fun p => p.2)

/-- Python `d[k] = v` on a dict rendered as an association list: replace an
existing binding in place, else append. -/
def setVar (l : List (String × String)) (k v : String) : List (String × String) :=
  if (lookupVar l k).isSome then l.map (fun p => if p.1 == k then (k, v) else p)
  else l ++ [(k, v)]

/-- Mutable state of one `LchliebedichEngine` instance. -/
structure EngineState where
  globalVariables : List (String × String) := []
  messageContext : List (String × String) := []
  clockDate : String := ""
  clockTime : String := ""
  clockDatetime : String := ""
  clockTs : String := ""
  clockTsMs : String := ""
  msgJson : String := ""
deriving Repr, DecidableEq

/-- `self.message_context.get(key, '')`. -/
def ctxGet (st : EngineState) (k : String) : String :=
  (lookupVar st.messageContext k).getD ""

/-- `_get_message_source`. -/
def getMessageSource (st : EngineState) : String :=
  if ctxGet st "message_type" == "group" then "群聊消息"
  else if ctxGet st "message_type" == "private" then "好友消息"
  else "其他消息"

/-- The `builtin_vars` table of `_get_variable_value`, with `.get(name, '')`. -/
def builtinVar (st : EngineState) (name : String) : String :=
  match name with
  | "QQ" => ctxGet st "user_id"
  | "Uin" => ctxGet st "user_id"
  | "昵称" => ctxGet st "nickname"
  | "UinName" => ctxGet st "nickname"
  | "群号" => ctxGet st "group_id"
  | "GroupId" => ctxGet st "group_id"
  | "群" => ctxGet st "group_id"
  | "Groupid" => ctxGet st "group_id"
  | "MSG" => ctxGet st "raw_message"
  | "MSGJ" => st.msgJson
  | "登录账号" => ctxGet st "self_id"
  | "Account" => ctxGet st "self_id"
  | "Robot" => ctxGet st "self_id"
  | "MsgId" => ctxGet st "message_id"
  | "消息来源" => getMessageSource st
  | "date" => st.clockDate
  | "time" => st.clockTime
  | "datetime" => st.clockDatetime
  | "时间戳" => st.clockTs
  | "时间戳毫秒" => st.clockTsMs
  | "时间" => st.clockTime
  | "日期" => st.clockDate
  | _ => ""

/-- `_get_variable_value`: global variables, then message context, then
built-ins, defaulting to the empty string. -/
def getVariableValue (st : EngineState) (name : String) : String :=
  match lookupVar st.globalVariables name with
  | some v => v
  | none =>
    match lookupVar st.messageContext name with
    | some v => v
    | none => builtinVar st name

/-! ## Function dispatcher -/

/-- Outcome of calling a built-in before the `try/except` in
`_call_function`: a value (with the possibly updated state), or a raised
exception. -/
inductive FuncOutcome where
  | ok (st : EngineState) (val : String)
  | err
deriving Repr

/-- The `self.functions` dispatch table restricted to its deterministic
built-ins; `none` means the name is not a key of the table.  `随机数`
(random), `文件大小`/`读`/`写` (file system access) and `新建消息` (stores a
non-string value) are outside the modelled fragment.  A wrong number of
arguments for a fixed-arity built-in is the `TypeError` Python raises at
the call, i.e. `FuncOutcome.err`. -/
def dispatchFunction (st : EngineState) (name : String) (args : List String) :
    Option FuncOutcome :=
  match name with
  | "字符长度" =>
    some (match args with
      | [t] => .ok st (toString t.length)
      | _ => .err)
  | "图片" =>
    some (match args with
      | [u] => .ok st ("[CQ:image,file=" ++ u ++ "]")
      | _ => .err)
  | "动图" =>
    some (match args with
      | [u] => .ok st ("[CQ:image,file=" ++ u ++ "]")
      | _ => .err)
  | "闪照" =>
    some (match args with
      | [u] => .ok st ("[CQ:image,file=" ++ u ++ ",type=flash]")
      | _ => .err)
  | "语音" =>
    some (match args with
      | [_, u] => .ok st ("[CQ:record,file=" ++ u ++ "]")
      | _ => .err)
  | "Emoy" =>
    some (match args with
      | [i] => .ok st ("[CQ:face,id=" ++ i ++ "]")
      | _ => .err)
  | "Emoq" =>
    some (match args with
      | [i] => .ok st ("[CQ:face,id=" ++ i ++ "]")
      | _ => .err)
  | "变量" =>
    some (match args with
      | [n, v] => .ok { st with globalVariables := setVar st.globalVariables n v } ""
      | _ => .err)
  | "取变量" =>
    some (match args with
      | [n] => .ok st (getVariableValue st n)
      | _ => .err)
  | "发送" => some (.ok st "")
  | "添加消息" => some (.ok st "")
  | "发送消息" =>
    some (match args with
      | [_] => .ok st ""
      | [_, _] => .ok st ""
      | _ => .err)
  | "存在消息" =>
    some (match args with
      | [t] => .ok st (if (lookupVar st.messageContext t).isSome then "True" else "False")
      | _ => .err)
  | "获取消息" =>
    some (match args with
      | [k] => .ok st (ctxGet st k)
      | [k, d] => .ok st ((lookupVar st.messageContext k).getD d)
      | _ => .ok st "")
  | "群聊消息" =>
    some (match args with
      | [] => .ok st (if ctxGet st "message_type" == "group" then "1" else "0")
      | _ => .err)
  | "好友消息" =>
    some (match args with
      | [] => .ok st (if ctxGet st "message_type" == "private" then "1" else "0")
      | _ => .err)
  | "临时消息" =>
    some (match args with
      | [] => .ok st "0"
      | _ => .err)
  | "系统消息" =>
    some (match args with
      | [] => .ok st "0"
      | _ => .err)
  | "未授权" =>
    some (match args with
      | [] => .ok st "0"
      | _ => .err)
  | _ => none

/-- `_call_function`: whitespace-split the token into a name and arguments,
look the name up, call it, and turn any raised exception — and any unknown
name — into the empty string. -/
def callFunction (st : EngineState) (content : String) : EngineState × String :=
  match pySplitWs (pyStrip content) with
  | [] => (st, "")
  | name :: args =>
    match dispatchFunction st name args with
    | some (.ok st' v) => (st', v)
    | some .err => (st, "")
    | none => (st, "")

/-! ## Substitution passes

`_process_variables_and_functions` runs `re.sub(r'%([^%]+)%', …)` over the
whole text and then `re.sub(r'\$([^$]+)\$', …)` over the result.  Each
`re.sub` is a single left-to-right scan of its input; replacement text is
emitted to the output and never rescanned.  `substVarsCore`/
`substFuncsCore` realise one such scan; the `Option (List Char)` argument
is `none` while scanning and `some acc` while inside a candidate token
(accumulated reversed). -/

/-- The `%name%` pass (pure: `replace_variable` only reads state). -/
def substVarsCore (st : EngineState) : Option (List Char) → List Char → List Char
  | none, [] => []
  | none, c :: rest =>
    if c = '%' then substVarsCore st (some []) rest
    else c :: substVarsCore st none rest
  | some acc, [] => '%' :: acc.reverse
  | some acc, c :: rest =>
    if c = '%' then
      if acc.isEmpty then '%' :: substVarsCore st (some []) rest
      else (getVariableValue st (String.mk acc.reverse)).data ++ substVarsCore st none rest
    else substVarsCore st (some (c :: acc)) rest

/-- The `$func args$` pass (`replace_function` calls mutate the state, in
scan order). -/
def substFuncsCore (st : EngineState) : Option (List Char) → List Char → EngineState × List Char
  | none, [] => (st, [])
  | none, c :: rest =>
    if c = '$' then substFuncsCore st (some []) rest
    else
      let p := substFuncsCore st none rest
      (p.1, c :: p.2)
  | some acc, [] => (st, '$' :: acc.reverse)
  | some acc, c :: rest =>
    if c = '$' then
      if acc.isEmpty then
        let p := substFuncsCore st (some []) rest
        (p.1, '$' :: p.2)
      else
        let q := callFunction st (String.mk acc.reverse)
        let p := substFuncsCore q.1 none rest
        (p.1, q.2.data ++ p.2)
    else substFuncsCore st (some (c :: acc)) rest

/-- `_process_variables_and_functions`: the `%var%` pass over the whole
text, then the `$func$` pass over its result. -/
def processVariablesAndFunctions (st : EngineState) (text : String) :
    EngineState × String :=
  let t1 := substVarsCore st none text.data
  let p := substFuncsCore st none t1
  (p.1, String.mk p.2)

/-! ## Trigger matching

`_match_trigger` compiles the trigger with `re.compile(trigger,
re.IGNORECASE)` and runs `.search(message)`; on `re.error` it falls back
to `trigger == message`.  The modelled pattern fragment is literal
characters plus `(.*)` groups. -/

/-- One item of a compiled pattern. -/
inductive RItem where
  | lit (c : Char)
  | star
deriving Repr, DecidableEq

/-- Regex metacharacters whose semantics the fragment does not model; a
trigger containing one (outside a literal `(.*)` group) is mapped to a
compile failure. -/
def isRegexSpecial (c : Char) : Bool :=
  c = '.' || c = '^' || c = '$' || c = '*' || c = '+' || c = '?' ||
  c = '\\' || c = '[' || c = ']' || c = '|' || c = '(' || c = ')'

/-- `re.compile` on the fragment: `none` models `re.error` (in particular
an unbalanced `(`). -/
def compileRegexAux : List Char → Option (List RItem)
  | [] => some []
  | '(' :: '.' :: '*' :: ')' :: rest => (compileRegexAux rest).map (fun l => .star :: l)
  | c :: rest =>
    if isRegexSpecial c then none
    else (compileRegexAux rest).map (fun l => .lit c :: l)

/-- Compile a trigger string. -/
def compileRegex (trigger : String) : Option (List RItem) :=
  compileRegexAux trigger.data

/-- Backtracking match of a pattern at the start of `xs` (unanchored at the
right, like `re.search` at a fixed position): returns the list of captured
groups.  A `(.*)` is greedy — it tries the longest capture first, exactly
as Python's engine does. -/
def matchHere : List RItem → List Char → Option (List (List Char))
  | [], _ => some []
  | .lit c :: ps, xs =>
    match xs with
    | [] => none
    | x :: xs' => if c.toLower == x.toLower then matchHere ps xs' else none
  | .star :: ps, xs =>
    ((List.range (xs.length + 1)).reverse).findSome?
      (fun k => (matchHere ps (xs.drop k)).map (fun gs => xs.take k :: gs))

/-- `re.search`: try each start position left to right. -/
def regexSearch (pat : List RItem) : List Char → Option (List (List Char))
  | [] => matchHere pat []
  | x :: rest =>
    match matchHere pat (x :: rest) with
    | some gs => some gs
    | none => regexSearch pat rest

/-- `_save_match_params`: capture groups as `括号i`, whitespace-split
positional parameters as `参数i`, plus the counters and the full text. -/
def saveMatchParams (st : EngineState) (groups : List String) (message : String) :
    EngineState :=
  let gv := (List.enumFrom 1 groups).foldl
    (fun acc p => setVar acc ("括号" ++ toString p.1) p.2) st.globalVariables
  let gv := setVar gv "括号量" (toString groups.length)
  let parts := pySplitWs message
  let gv := (List.enumFrom 1 (parts.drop 1)).foldl
    (fun acc p => setVar acc ("参数" ++ toString p.1) p.2) gv
  let gv := setVar gv "参数量" (toString ((parts.length : Int) - 1))
  let gv := setVar gv "参数-1" message
  { st with globalVariables := gv }

/-- `_match_trigger`. -/
def matchTrigger (st : EngineState) (trigger message : String) :
    EngineState × Bool :=
  match compileRegex trigger with
  | none => (st, trigger == message)
  | some pat =>
    match regexSearch pat message.data with
    | some groups => (saveMatchParams st (groups.map String.mk) message, true)
    | none => (st, false)

/-! ## Condition evaluator -/

/-- Drop the first `n` code points, Python `s[n:]`. -/
def strDropChars (s : String) (n : Nat) : String :=
  String.mk (s.data.drop n)

/-- Numeric comparison of `_evaluate_condition`: both sides through
`float()`, any `ValueError` making the whole comparison `False`. -/
def floatCmp (op : ℚ → ℚ → Bool) (l r : String) : Bool :=
  match parseFloat (pyStrip l), parseFloat (pyStrip r) with
  | some a, some b => op a b
  | _, _ => false

/-- Body of `_evaluate_condition` after the substitution of the guard:
the first operator found — in the precedence `==`, `!=`, `<=`, `>=`, `<`,
`>`, `&`, `|` — decides the shape; `==`/`!=` compare the trimmed sides as
strings, the four comparisons parse both sides as floats, `&`/`|` recurse
(through `recur`) into every sub-clause with Python's `all`/`any`
short-circuit, and an operator-free expression is numeric truthiness with
a boolean-word fallback. -/
def evalCondCore (recur : EngineState → String → EngineState × Bool)
    (st1 : EngineState) (expr : String) : EngineState × Bool :=
  match splitFirst "==" expr with
  | some (l, r) => (st1, pyStrip l == pyStrip r)
  | none =>
    match splitFirst "!=" expr with
    | some (l, r) => (st1, !(pyStrip l == pyStrip r))
    | none =>
      match splitFirst "<=" expr with
      | some (l, r) => (st1, floatCmp (fun a b => decide (a ≤ b)) l r)
      | none =>
        match splitFirst ">=" expr with
        | some (l, r) => (st1, floatCmp (fun a b => decide (b ≤ a)) l r)
        | none =>
          match splitFirst "<" expr with
          | some (l, r) => (st1, floatCmp (fun a b => decide (a < b)) l r)
          | none =>
            match splitFirst ">" expr with
            | some (l, r) => (st1, floatCmp (fun a b => decide (b < a)) l r)
            | none =>
              if expr.data.contains '&' then
                (splitAllChar '&' [] expr.data).foldl
                  (fun acc part =>
                    if acc.2 then recur acc.1 (pyStrip (String.mk part))
                    else acc)
                  (st1, true)
              else if expr.data.contains '|' then
                (splitAllChar '|' [] expr.data).foldl
                  (fun acc part =>
                    if acc.2 then acc
                    else recur acc.1 (pyStrip (String.mk part)))
                  (st1, false)
              else
                let es := pyStrip expr
                match parseFloat es with
                | some v => (st1, decide (v ≠ 0))
                | none => (st1, ["true", "1", "yes"].contains (pyLower es))

/-- `_evaluate_condition`: substitute the expression, then run the operator
chain.  The `fuel` bounds the `&`/`|` recursion (Python's own call stack is
the implicit bound there); with the fuel exhausted the result is `False`. -/
def evaluateCondition : Nat → EngineState → String → EngineState × Bool
  | 0, st, _ => (st, false)
  | fuel + 1, st, expr0 =>
    let p := processVariablesAndFunctions st expr0
    evalCondCore (fun s x => evaluateCondition fuel s x) p.1 p.2

/-! ## Condition block interpretation (`_process_conditions`) -/

/-- Collect the body of a taken `if` branch: raw lines up to the first
`else`/`如果尾`; `none` models the `return ""` taken at a `返回` line. -/
def collectIf : List String → Option (List String)
  | [] => some []
  | raw :: rest =>
    let cur := pyStrip raw
    if pyStartsWith cur "返回" then none
    else if pyStartsWith cur "else" || pyStartsWith cur "如果尾" then some []
    else (collectIf rest).map (fun l => raw :: l)

/-- Result of skipping over a not-taken `if` branch. -/
inductive SkipResult where
  | ret
  | toElse (rest : List String)
  | toEnd (rest : List String)
  | offEnd
deriving Repr

/-- Skip a not-taken `if` branch: a `返回` inside the skipped lines still
returns `""` (as the Python loop does), an `else` or `如果尾` stops the
skip, running off the end leaves the outer loop to terminate. -/
def skipIf : List String → SkipResult
  | [] => .offEnd
  | raw :: rest =>
    let cur := pyStrip raw
    if pyStartsWith cur "返回" then .ret
    else if pyStartsWith cur "else" then .toElse rest
    else if pyStartsWith cur "如果尾" then .toEnd rest
    else skipIf rest

/-- Collect an `else` branch up to `如果尾` (`返回` again yields `""`). -/
def collectElse : List String → Option (List String)
  | [] => some []
  | raw :: rest =>
    let cur := pyStrip raw
    if pyStartsWith cur "返回" then none
    else if pyStartsWith cur "如果尾" then some []
    else (collectElse rest).map (fun l => raw :: l)

/-- Outer scan of `_process_conditions`: lines are scanned left to right;
each `如果:`/`if:` line has its expression (everything after the three-code-
point prefix) evaluated and the matching branch joined with newlines.  The
inner fuel mirrors the strictly advancing index `i` of the Python loop and
`conditions.length + 1` always suffices. -/
def processCondsLoop (evalFuel : Nat) : Nat → EngineState → List String →
    EngineState × Option String
  | 0, st, _ => (st, none)
  | _, st, [] => (st, none)
  | fuel + 1, st, raw :: rest =>
    let cond := pyStrip raw
    if pyStartsWith cond "如果:" || pyStartsWith cond "if:" then
      let expr := pyStrip (strDropChars cond 3)
      let q := evaluateCondition evalFuel st expr
      let st1 := q.1
      if q.2 then
        match collectIf rest with
        | none => (st1, some "")
        | some content => (st1, some (joinNL content))
      else
        match skipIf rest with
        | .ret => (st1, some "")
        | .toElse rest' =>
          match collectElse rest' with
          | none => (st1, some "")
          | some content => (st1, some (joinNL content))
        | .toEnd rest' => processCondsLoop evalFuel fuel st1 rest'
        | .offEnd => (st1, none)
    else processCondsLoop evalFuel fuel st rest

/-- `_process_conditions`. -/
def processConditions (evalFuel : Nat) (st : EngineState) (conds : List String) :
    EngineState × Option String :=
  processCondsLoop evalFuel (conds.length + 1) st conds

/-! ## Rules and response generation -/

/-- `LexiconEntry`.  The parse-time `uuid` identity is omitted: it is an
opaque token used only by the editor UI.  The source's `variables` field is
rendered `localVariables` (`variables` is reserved in Lean). -/
structure LexiconEntry where
  trigger : String
  responses : List String
  localVariables : List (String × String) := []
  conditions : List String := []
  category : Option String := none
  enabled : Bool := true
deriving Repr, DecidableEq

/-- `_generate_response`.  Note the Python truthiness test `if response:`
on the condition result: both `None` and `""` fall through to the plain
responses.  (The `local_vars = entry.variables.copy()` line of the source
is dead code — the copy is never read — and is omitted.) -/
def generateResponse (evalFuel : Nat) (st : EngineState) (entry : LexiconEntry) :
    EngineState × String :=
  let q :=
    if entry.conditions.isEmpty then (st, none)
    else processConditions evalFuel st entry.conditions
  let st1 := q.1
  let useCond := match q.2 with
    | some r => r != ""
    | none => false
  if useCond then
    processVariablesAndFunctions st1 (q.2.getD "")
  else
    if entry.responses.isEmpty then (st1, "")
    else processVariablesAndFunctions st1 (joinNL entry.responses)

/-- One `LchliebedichEngine` instance: its rule list and mutable state. -/
structure Engine where
  entries : List LexiconEntry
  state : EngineState
deriving Repr

/-- The rule loop of `LchliebedichEngine.process_message`: first matching
trigger wins and its response is returned unconditionally. -/
def engineLoop (evalFuel : Nat) (message : String) :
    List LexiconEntry → EngineState → EngineState × Option String
  | [], st => (st, none)
  | e :: rest, st =>
    let m := matchTrigger st e.trigger message
    if m.2 then
      let g := generateResponse evalFuel m.1 e
      (g.1, some g.2)
    else engineLoop evalFuel message rest m.1

/-- `LchliebedichEngine.process_message`: store the context, then scan the
rules. -/
def engineProcessMessage (evalFuel : Nat) (eng : Engine) (message : String)
    (ctx : List (String × String)) : Engine × Option String :=
  let st0 := { eng.state with messageContext := ctx }
  let r := engineLoop evalFuel message eng.entries st0
  ({ eng with state := r.1 }, r.2)

/-! ## Lexicon set manager (`LchliebedichWordLibManager.process_message`) -/

/-- The manager: engines keyed by file name in dict insertion (= load)
order, plus the enabled-file list. -/
structure Manager where
  engines : List (String × Engine)
  enabledFiles : List String

/-- The file loop of the manager's `process_message`.  Note the Python
truthiness test `if response:` — an engine answering `Some("")` does NOT
stop the loop; only a non-empty response is returned. -/
def managerLoop (evalFuel : Nat) (message : String) (ctx : List (String × String))
    (enabled : List String) :
    List (String × Engine) → List (String × Engine) × Option String
  | [] => ([], none)
  | (name, eng) :: rest =>
    if enabled.contains name then
      let r := engineProcessMessage evalFuel eng message ctx
      match r.2 with
      | some resp =>
        if resp ≠ "" then ((name, r.1) :: rest, some resp)
        else
          let q := managerLoop evalFuel message ctx enabled rest
          ((name, r.1) :: q.1, q.2)
      | none =>
        let q := managerLoop evalFuel message ctx enabled rest
        ((name, r.1) :: q.1, q.2)
    else
      let q := managerLoop evalFuel message ctx enabled rest
      ((name, eng) :: q.1, q.2)

/-- `LchliebedichWordLibManager.process_message`. -/
def managerProcessMessage (evalFuel : Nat) (mgr : Manager) (message : String)
    (ctx : List (String × String)) : Manager × Option String :=
  let r := managerLoop evalFuel message ctx mgr.enabledFiles mgr.engines
  ({ mgr with engines := r.1 }, r.2)

/-! ## Lexicon parser -/

/-- `_is_comment_line`. -/
def isCommentLine (line : String) : Bool :=
  pyStartsWith line "//" || pyStartsWith line "##" || pyStartsWith line "&&"

/-- `_is_variable_definition`: no `%` anywhere, and either a single
alphanumeric character before a `:` (form 1, `^[a-zA-Z0-9]:.*`) or a `:`
within the first three code points (form 2, `^.{1,3}:.*` plus `':' in
line`). -/
def isVariableDefinition (line : String) : Bool :=
  if line.data.contains '%' then false
  else
    (match line.data with
      | c0 :: ':' :: _ => c0.isAlphanum
      | _ => false)
    || (([1, 2, 3].any (fun k => line.data.get? k == some ':'))
        && line.data.contains ':')

/-- `_parse_variable_definition`: `line.split(':', 1)` with both parts
stripped.  (Only called on lines `isVariableDefinition` accepts, which all
contain a `:`; the `none` arm is unreachable there.) -/
def parseVariableDefinition (line : String) : String × String :=
  match splitFirst ":" line with
  | some (k, v) => (pyStrip k, pyStrip v)
  | none => (pyStrip line, "")

/-- The look-back of `_looks_like_trigger`: walking upward from the line
above `index`, the first blank line yields `(true, false)`, the first
non-comment content line yields `(false, true)`; comments are skipped. -/
def lookBack (lines : List String) : Nat → Bool × Bool
  | 0 => (false, false)
  | j + 1 =>
    let prev := pyStrip ((lines.get? j).getD "")
    if prev == "" then (true, false)
    else if isCommentLine prev then lookBack lines j
    else (false, true)

/-- `_looks_like_trigger`. -/
def looksLikeTrigger (line : String) (index : Nat) (lines : List String) : Bool :=
  if isVariableDefinition line || pyStartsWith line "如果:" || pyStartsWith line "if:"
      || pyStartsWith line "#->var:" || pyStartsWith line "else"
      || pyStartsWith line "返回" || pyStartsWith line "如果尾" then
    false
  else
    let b := lookBack lines index
    if b.2 && !b.1 then false else true

/-- Backward scan of `_extract_category_from_context`: nearest preceding
comment whose content (after stripping the comment markers) is not
boilerplate; a non-comment content line stops the scan. -/
def extractCategoryLoop (lines : List String) : Nat → Option String
  | 0 => none
  | j + 1 =>
    let line := pyStrip ((lines.get? j).getD "")
    if line == "" then extractCategoryLoop lines j
    else if isCommentLine line then
      let comment := pyStrip (String.mk
        (((line.data.dropWhile (fun c => c = '/')).dropWhile (fun c => c = '#')).dropWhile
          (fun c => c = '&')))
      if comment ≠ "" && !pyStartsWith comment "lchliebedich"
          && !pyStartsWith comment "这是注释" then some comment
      else extractCategoryLoop lines j
    else none

/-- `_extract_category_from_context`. -/
def extractCategoryFromContext (lines : List String) (startIndex : Nat) : Option String :=
  extractCategoryLoop lines startIndex

/-- The collection loop of `_parse_line_variable`: verbatim lines until the
next `#->var:`, a blank, a comment, or a would-be trigger. -/
def parseLineVarLoop (lines : List String) : Nat → Nat → List String → List String × Nat
  | 0, i, acc => (acc.reverse, i)
  | fuel + 1, i, acc =>
    match lines.get? i with
    | none => (acc.reverse, i)
    | some raw =>
      let ls := pyStrip raw
      if pyStartsWith ls "#->var:" then (acc.reverse, i)
      else if ls == "" then (acc.reverse, i)
      else if isCommentLine ls then (acc.reverse, i)
      else if looksLikeTrigger ls i lines then (acc.reverse, i)
      else parseLineVarLoop lines fuel (i + 1) (raw :: acc)

/-- `_parse_line_variable`. -/
def parseLineVariable (lines : List String) (startIndex : Nat) : String × Nat :=
  let p := parseLineVarLoop lines (lines.length + 1) (startIndex + 1) []
  (joinNL p.1, p.2)

/-- The collection loop of `_parse_condition_block`: stripped lines from
the opening `如果:` line until a `如果尾` or a blank line. -/
def parseCondLoop (lines : List String) : Nat → Nat → List String → List String × Nat
  | 0, i, acc => (acc.reverse, i)
  | fuel + 1, i, acc =>
    match lines.get? i with
    | none => (acc.reverse, i)
    | some raw =>
      let line := pyStrip raw
      if pyStartsWith line "如果尾" || line == "" then (acc.reverse, i)
      else parseCondLoop lines fuel (i + 1) (line :: acc)

/-- `_parse_condition_block` (the returned index skips the `如果尾`). -/
def parseConditionBlock (lines : List String) (startIndex : Nat) : List String × Nat :=
  let p := parseCondLoop lines (lines.length + 1) startIndex []
  (p.1, p.2 + 1)

/-- The body loop of `_parse_entry`, classifying each line.  The branch
order is the source's: blank terminates, comments are skipped, a would-be
trigger terminates, then variable definition, then `#->var:` block, then
`如果:`/`if:` block, and only then a plain response line. -/
def parseEntryLoop (lines : List String) :
    Nat → Nat → List String → List (String × String) → List String →
    List String × List (String × String) × List String × Nat
  | 0, i, resp, vars, conds => (resp.reverse, vars, conds, i)
  | fuel + 1, i, resp, vars, conds =>
    match lines.get? i with
    | none => (resp.reverse, vars, conds, i)
    | some raw =>
      let line := pyStrip raw
      if line == "" then (resp.reverse, vars, conds, i)
      else if isCommentLine line then parseEntryLoop lines fuel (i + 1) resp vars conds
      else if looksLikeTrigger line i lines then (resp.reverse, vars, conds, i)
      else if isVariableDefinition line then
        let d := parseVariableDefinition line
        parseEntryLoop lines fuel (i + 1) resp (setVar vars d.1 d.2) conds
      else if pyStartsWith line "#->var:" then
        let p := parseLineVariable lines i
        let nRaw := pyStrip (strDropChars line 7)
        let n := if nRaw == "" then "default_var" else nRaw
        parseEntryLoop lines fuel p.2 resp (setVar vars n p.1) conds
      else if pyStartsWith line "如果:" || pyStartsWith line "if:" then
        let p := parseConditionBlock lines i
        parseEntryLoop lines fuel p.2 resp vars (conds ++ p.1)
      else parseEntryLoop lines fuel (i + 1) (line :: resp) vars conds

/-- `_parse_entry`: the trigger is the (stripped) line at `startIndex`, the
body is everything the loop collects; an entry with no responses, variables
or conditions is discarded. -/
def parseEntry (lines : List String) (startIndex : Nat) : Option LexiconEntry × Nat :=
  let trigger := pyStrip ((lines.get? startIndex).getD "")
  let category := extractCategoryFromContext lines startIndex
  let p := parseEntryLoop lines (lines.length + 1) (startIndex + 1) [] [] []
  if p.1 ≠ [] || p.2.1 ≠ [] || p.2.2.1 ≠ [] then
    (some ⟨trigger, p.1, p.2.1, p.2.2.1, category, true⟩, p.2.2.2)
  else (none, p.2.2.2)

/-- The scan of `_parse_lexicon_content`: skip comments and blanks, parse
an entry at each remaining line. -/
def parseLexiconLoop (lines : List String) : Nat → Nat → List LexiconEntry →
    List LexiconEntry
  | 0, _, acc => acc.reverse
  | fuel + 1, i, acc =>
    match lines.get? i with
    | none => acc.reverse
    | some raw =>
      let line := pyStrip raw
      if isCommentLine line then parseLexiconLoop lines fuel (i + 1) acc
      else if line == "" then parseLexiconLoop lines fuel (i + 1) acc
      else
        let p := parseEntry lines i
        match p.1 with
        | some entry => parseLexiconLoop lines fuel p.2 (entry :: acc)
        | none => parseLexiconLoop lines fuel p.2 acc

/-- `_parse_lexicon_content`: split on `'\n'` and scan. -/
def parseLexiconContent (content : String) : List LexiconEntry :=
  let lines := (splitAllChar '\n' [] content.data).map String.mk
  parseLexiconLoop lines (lines.length + 1) 0 []

/-! ## Spec-side substitution pass

The specification describes the final substitution differently from the
code: "Run one Variable Resolver + Function Dispatcher substitution pass
over the selected text (interleaved: each token scanned once, left to
right)" and "the single, non-recursive scan that replaces `%var%` and
`$func args$` tokens in a template".  The following definition renders
those words, for comparison with `processVariablesAndFunctions` above. -/

/-- Modelled from the spec: a single interleaved left-to-right scan in
which each `%var%` and `$func args$` token is scanned exactly once and
replacement text is never rescanned.  The scanning mode is `none` outside
a token and `some (isVar, acc)` inside a candidate token opened by `%`
(`isVar = true`) or `$` (`isVar = false`), with the token body accumulated
reversed; an empty candidate (`%%`/`$$`) re-opens at its second delimiter,
and an unclosed delimiter at the end of the scan is emitted literally. -/
def specSubstCore (st : EngineState) : Option (Bool × List Char) → List Char →
    EngineState × List Char
  | none, [] => (st, [])
  | none, c :: rest =>
    if c = '%' then specSubstCore st (some (true, [])) rest
    else if c = '$' then specSubstCore st (some (false, [])) rest
    else
      let p := specSubstCore st none rest
      (p.1, c :: p.2)
  | some (isVar, acc), [] => (st, (if isVar then '%' else '$') :: acc.reverse)
  | some (isVar, acc), c :: rest =>
    if c = (if isVar then '%' else '$') then
      if acc.isEmpty then
        let p := specSubstCore st (some (isVar, [])) rest
        (p.1, c :: p.2)
      else if isVar then
        let v := getVariableValue st (String.mk acc.reverse)
        let p := specSubstCore st none rest
        (p.1, v.data ++ p.2)
      else
        let q := callFunction st (String.mk acc.reverse)
        let p := specSubstCore q.1 none rest
        (p.1, q.2.data ++ p.2)
    else specSubstCore st (some (isVar, c :: acc)) rest

/-- Modelled from the spec: the whole one-pass substitution over a
template. -/
def specSubstitutePass (st : EngineState) (text : String) : EngineState × String :=
  let p := specSubstCore st none text.data
  (p.1, String.mk p.2)

/-! ## General lemmas -/

theorem mk_data (s : String) : String.mk s.data = s := rfl

theorem length_dropWhile_le (f : Char → Bool) :
    ∀ l : List Char, (l.dropWhile f).length ≤ l.length := by
  intro l
  induction l with
  | nil => simp
  | cons a t ih =>
    rw [List.dropWhile_cons]
    split
    · exact le_trans ih (Nat.le_succ _)
    · simp

theorem dropWhile_append_eq (f : Char → Bool) (l1 l2 : List Char)
    (h : l1.dropWhile f = l1) (hne : l1 ≠ []) :
    (l1 ++ l2).dropWhile f = l1 ++ l2 := by
  cases l1 with
  | nil => exact absurd rfl hne
  | cons a t =>
    have hfa : f a = false := by
      cases hfab : f a with
      | false => rfl
      | true =>
        rw [List.dropWhile_cons, hfab] at h
        simp only [if_true] at h
        have hle := length_dropWhile_le f t
        rw [h] at hle
        simp at hle
    simp [List.dropWhile_cons, hfa]

theorem pyStrip_eq_self {s : String}
    (h1 : s.data.dropWhile isPySpace = s.data)
    (h2 : s.data.reverse.dropWhile isPySpace = s.data.reverse) :
    pyStrip s = s := by
  unfold pyStrip
  rw [h1, h2, List.reverse_reverse]

theorem substVarsCore_open (st : EngineState) :
    ∀ (name acc t2 : List Char), ('%' : Char) ∉ name → (acc = [] → name ≠ []) →
    substVarsCore st (some acc) (name ++ '%' :: t2)
      = (getVariableValue st (String.mk (acc.reverse ++ name))).data
        ++ substVarsCore st none t2 := by
  intro name
  induction name with
  | nil =>
    intro acc t2 _ hne
    have hacc : acc.isEmpty = false := by
      cases hc : acc with
      | nil => exact absurd rfl (hne hc)
      | cons a l => rfl
    simp [substVarsCore, hacc]
  | cons c name ih =>
    intro acc t2 hmem hne
    have hc : ¬(c = '%') := fun h => hmem (h ▸ List.mem_cons_self c name)
    simp only [List.cons_append]
    rw [substVarsCore]
    simp only [hc, if_false]
    rw [ih (c :: acc) t2 (fun hx => hmem (List.mem_cons_of_mem c hx)) (by simp)]
    simp

theorem substVarsCore_token (st : EngineState) :
    ∀ (t1 name t2 : List Char), ('%' : Char) ∉ t1 → ('%' : Char) ∉ name → name ≠ [] →
    substVarsCore st none (t1 ++ '%' :: (name ++ '%' :: t2))
      = t1 ++ ((getVariableValue st (String.mk name)).data ++ substVarsCore st none t2) := by
  intro t1
  induction t1 with
  | nil =>
    intro name t2 _ h2 h3
    simp only [List.nil_append]
    rw [substVarsCore]
    simp only [if_pos rfl]
    rw [substVarsCore_open st name [] t2 h2 (fun _ => h3)]
    simp
  | cons c t ih =>
    intro name t2 h1 h2 h3
    have hc : ¬(c = '%') := fun h => h1 (h ▸ List.mem_cons_self c t)
    simp only [List.cons_append]
    rw [substVarsCore]
    simp only [hc, if_false]
    rw [ih name t2 (fun hx => h1 (List.mem_cons_of_mem c hx)) h2 h3]

theorem substFuncsCore_open (st : EngineState) :
    ∀ (tok acc t2 : List Char), ('$' : Char) ∉ tok → (acc = [] → tok ≠ []) →
    substFuncsCore st (some acc) (tok ++ '$' :: t2)
      = ((substFuncsCore (callFunction st (String.mk (acc.reverse ++ tok))).1 none t2).1,
         (callFunction st (String.mk (acc.reverse ++ tok))).2.data
           ++ (substFuncsCore (callFunction st (String.mk (acc.reverse ++ tok))).1 none t2).2) := by
  intro tok
  induction tok with
  | nil =>
    intro acc t2 _ hne
    have hacc : acc.isEmpty = false := by
      cases hc : acc with
      | nil => exact absurd rfl (hne hc)
      | cons a l => rfl
    simp [substFuncsCore, hacc]
  | cons c tok ih =>
    intro acc t2 hmem hne
    have hc : ¬(c = '$') := fun h => hmem (h ▸ List.mem_cons_self c tok)
    simp only [List.cons_append]
    rw [substFuncsCore]
    simp only [hc, if_false]
    rw [ih (c :: acc) t2 (fun hx => hmem (List.mem_cons_of_mem c hx)) (by simp)]
    simp

theorem substFuncsCore_token (st : EngineState) :
    ∀ (t1 tok t2 : List Char), ('$' : Char) ∉ t1 → ('$' : Char) ∉ tok → tok ≠ [] →
    substFuncsCore st none (t1 ++ '$' :: (tok ++ '$' :: t2))
      = ((substFuncsCore (callFunction st (String.mk tok)).1 none t2).1,
         t1 ++ ((callFunction st (String.mk tok)).2.data
           ++ (substFuncsCore (callFunction st (String.mk tok)).1 none t2).2)) := by
  intro t1
  induction t1 with
  | nil =>
    intro tok t2 _ h2 h3
    simp only [List.nil_append]
    rw [substFuncsCore]
    simp only [if_pos rfl]
    rw [substFuncsCore_open st tok [] t2 h2 (fun _ => h3)]
    simp
  | cons c t ih =>
    intro tok t2 h1 h2 h3
    have hc : ¬(c = '$') := fun h => h1 (h ▸ List.mem_cons_self c t)
    simp only [List.cons_append]
    rw [substFuncsCore]
    simp only [hc, if_false]
    rw [ih tok t2 (fun hx => h1 (List.mem_cons_of_mem c hx)) h2 h3]

theorem substFuncsCore_no_dollar (st : EngineState) :
    ∀ l : List Char, ('$' : Char) ∉ l → substFuncsCore st none l = (st, l) := by
  intro l
  induction l with
  | nil => intro _; rfl
  | cons c rest ih =>
    intro h
    have hc : ¬(c = '$') := fun hx => h (hx ▸ List.mem_cons_self c rest)
    rw [substFuncsCore]
    simp only [hc, if_false]
    rw [ih (fun hx => h (List.mem_cons_of_mem c hx))]

theorem specSubstCore_varOpen (st : EngineState) :
    ∀ (name acc t2 : List Char), ('%' : Char) ∉ name → (acc = [] → name ≠ []) →
    specSubstCore st (some (true, acc)) (name ++ '%' :: t2)
      = ((specSubstCore st none t2).1,
         (getVariableValue st (String.mk (acc.reverse ++ name))).data
           ++ (specSubstCore st none t2).2) := by
  intro name
  induction name with
  | nil =>
    intro acc t2 _ hne
    have hacc : acc.isEmpty = false := by
      cases hc : acc with
      | nil => exact absurd rfl (hne hc)
      | cons a l => rfl
    simp [specSubstCore, hacc]
  | cons c name ih =>
    intro acc t2 hmem hne
    have hc : ¬(c = '%') := fun h => hmem (h ▸ List.mem_cons_self c name)
    simp only [List.cons_append]
    rw [specSubstCore]
    simp only [if_true, hc, if_false]
    rw [ih (c :: acc) t2 (fun hx => hmem (List.mem_cons_of_mem c hx)) (by simp)]
    simp

theorem matchTrigger_eq_fallback (st : EngineState) (t m : String)
    (hc : compileRegex t = none) : matchTrigger st t m = (st, t == m) := by
  unfold matchTrigger
  rw [hc]

theorem matchTrigger_eq_search (st : EngineState) (t m : String) (pat : List RItem)
    (hc : compileRegex t = some pat) :
    matchTrigger st t m
      = (match regexSearch pat m.data with
         | some groups => (saveMatchParams st (groups.map String.mk) m, true)
         | none => (st, false)) := by
  unfold matchTrigger
  rw [hc]

theorem matchTrigger_of_not_matched (st : EngineState) (t m : String)
    (h : (matchTrigger st t m).2 = false) : matchTrigger st t m = (st, false) := by
  cases hc : compileRegex t with
  | none =>
    rw [matchTrigger_eq_fallback st t m hc] at h ⊢
    have h' : (t == m) = false := h
    rw [h']
  | some pat =>
    rw [matchTrigger_eq_search st t m pat hc] at h ⊢
    cases hs : regexSearch pat m.data with
    | none => rfl
    | some gs =>
      rw [hs] at h
      exact Bool.noConfusion (h : true = false)

theorem engineLoop_first (evalFuel : Nat) (message : String) :
    ∀ (pre : List LexiconEntry) (e : LexiconEntry) (post : List LexiconEntry)
      (st : EngineState),
    (∀ e' ∈ pre, (matchTrigger st e'.trigger message).2 = false) →
    (matchTrigger st e.trigger message).2 = true →
    engineLoop evalFuel message (pre ++ e :: post) st
      = ((generateResponse evalFuel (matchTrigger st e.trigger message).1 e).1,
         some (generateResponse evalFuel (matchTrigger st e.trigger message).1 e).2) := by
  intro pre
  induction pre with
  | nil =>
    intro e post st _ he
    simp only [List.nil_append]
    rw [engineLoop]
    simp [he]
  | cons e0 pre ih =>
    intro e post st hpre he
    have h0 : (matchTrigger st e0.trigger message).2 = false :=
      hpre e0 (List.mem_cons_self e0 pre)
    have hst := matchTrigger_of_not_matched st e0.trigger message h0
    simp only [List.cons_append]
    rw [engineLoop, hst]
    simp only [if_false]
    exact ih e post st (fun e' he' => hpre e' (List.mem_cons_of_mem e0 he')) he

theorem eq_empty_of_data_eq_nil {s : String} (h : s.data = []) : s = "" := by
  cases s
  simp_all

theorem data_ne_nil {s : String} (h : s ≠ "") : s.data ≠ [] :=
  fun hx => h (eq_empty_of_data_eq_nil hx)

theorem engineLoop_isSome (evalFuel : Nat) (message : String) :
    ∀ (entries : List LexiconEntry) (st : EngineState),
    (∃ e ∈ entries, (matchTrigger st e.trigger message).2 = true) →
    (engineLoop evalFuel message entries st).2.isSome = true := by
  intro entries
  induction entries with
  | nil =>
    rintro st ⟨e, he, _⟩
    cases he
  | cons e0 rest ih =>
    rintro st ⟨e, he, hm⟩
    cases h0 : (matchTrigger st e0.trigger message).2 with
    | true => simp [engineLoop, h0]
    | false =>
      have hst := matchTrigger_of_not_matched st e0.trigger message h0
      rw [engineLoop, hst]
      simp only [if_false]
      apply ih st
      rcases List.mem_cons.mp he with rfl | hmem
      · exact absurd hm (by rw [h0]; simp)
      · exact ⟨e, hmem, hm⟩

end Lch

namespace Lch

/-! ## Claim theorems -/

/-- C6: variable substitution is single-pass and non-recursive — the value
inserted for a `%name%` token is emitted verbatim and never rescanned, so a
value containing `%other%` leaves that text literally in the output; the
scan continues after the closing `%` only.  The second conjunct carries the
fact through the whole `_process_variables_and_functions` pipeline whenever
no `$` token is involved. -/
theorem C6_single_pass_substitution (st : EngineState) (t1 name t2 : String)
    (h1 : ('%' : Char) ∉ t1.data) (h2 : ('%' : Char) ∉ name.data) (h3 : name ≠ "") :
    substVarsCore st none (t1 ++ "%" ++ name ++ "%" ++ t2).data
      = t1.data ++ ((getVariableValue st name).data ++ substVarsCore st none t2.data)
    ∧ (('$' : Char) ∉ t1.data ++ ((getVariableValue st name).data
          ++ substVarsCore st none t2.data) →
       (processVariablesAndFunctions st (t1 ++ "%" ++ name ++ "%" ++ t2)).2
         = String.mk (t1.data ++ ((getVariableValue st name).data
             ++ substVarsCore st none t2.data))) := by
  have hd : (t1 ++ "%" ++ name ++ "%" ++ t2).data
      = t1.data ++ '%' :: (name.data ++ '%' :: t2.data) := by
    simp [String.data_append]
  have hmain := substVarsCore_token st t1.data name.data t2.data h1 h2 (data_ne_nil h3)
  rw [mk_data] at hmain
  constructor
  · rw [hd, hmain]
  · intro hnd
    show String.mk (substFuncsCore st none
      (substVarsCore st none (t1 ++ "%" ++ name ++ "%" ++ t2).data)).2 = _
    rw [hd, hmain, substFuncsCore_no_dollar st _ hnd]

/-- C7: a trigger whose regex compilation fails never raises — matching
falls back to exact string equality between trigger and full message, the
engine state is left untouched, and in particular no capture-group or
positional-parameter variables are written. -/
theorem C7_malformed_trigger_fallback (st : EngineState) (trigger message : String)
    (h : compileRegex trigger = none) :
    matchTrigger st trigger message = (st, trigger == message)
    ∧ (matchTrigger st trigger message).1.globalVariables = st.globalVariables := by
  have he := matchTrigger_eq_fallback st trigger message h
  exact ⟨he, by rw [he]⟩

/-- C7 witness: the unbalanced trigger `(` fails to compile, matches the
message `(` by exact equality, and writes nothing. -/
theorem C7_malformed_trigger_fallback_witness :
    matchTrigger ({} : EngineState) "(" "(" = ({}, true)
    ∧ compileRegex "(" = none := by
  have h := C7_malformed_trigger_fallback ({} : EngineState) "(" "(" rfl
  refine ⟨?_, rfl⟩
  rw [h.1]
  rfl

/-- C9: an exception inside a single `$func args$` call is caught at the
call site and replaced by the empty string, the engine state is not
changed by the failed call, and the scan continues over the rest of the
template exactly as if the token had produced nothing; no error outcome
escapes the substitution (its result is a plain pair). -/
theorem C9_function_error_isolation (st : EngineState) (t1 tok t2 : String)
    (h1 : ('$' : Char) ∉ t1.data) (h2 : ('$' : Char) ∉ tok.data) (h3 : tok ≠ "")
    (name : String) (args : List String)
    (hsplit : pySplitWs (pyStrip tok) = name :: args)
    (herr : dispatchFunction st name args = some FuncOutcome.err) :
    substFuncsCore st none (t1 ++ "$" ++ tok ++ "$" ++ t2).data
      = ((substFuncsCore st none t2.data).1,
         t1.data ++ (substFuncsCore st none t2.data).2) := by
  have hcall : callFunction st tok = (st, "") := by
    unfold callFunction
    rw [hsplit]
    show (match dispatchFunction st name args with
          | some (FuncOutcome.ok st' v) => (st', v)
          | some FuncOutcome.err => (st, "")
          | none => (st, "")) = (st, "")
    rw [herr]
  have hd : (t1 ++ "$" ++ tok ++ "$" ++ t2).data
      = t1.data ++ '$' :: (tok.data ++ '$' :: t2.data) := by
    simp [String.data_append]
  have hmain := substFuncsCore_token st t1.data tok.data t2.data h1 h2 (data_ne_nil h3)
  rw [mk_data, hcall] at hmain
  rw [hd, hmain]
  simp

/-- C9 witness: in `a$字符长度$b`, the zero-argument call to `字符长度`
(which needs one argument) raises, is replaced by the empty string, and the
rest of the template is still emitted. -/
theorem C9_function_error_isolation_witness :
    substFuncsCore ({} : EngineState) none
        (("a" ++ "$" ++ "字符长度" ++ "$" ++ "b")).data = ({}, ("ab").data) := by
  have h := C9_function_error_isolation ({} : EngineState) "a" "字符长度" "b"
    (by decide) (by decide) (by decide) "字符长度" [] rfl rfl
  rw [h]
  rfl

/-- C10: whenever some rule's trigger matches the message, the engine's
`process_message` returns a string, never `None` (first conjunct); and a
matched rule whose condition block selects no branch and whose responses
list is empty yields exactly the empty string (second conjunct). -/
theorem C10_matched_always_some (evalFuel : Nat) (eng : Engine) (message : String)
    (ctx : List (String × String)) :
    ((∃ e ∈ eng.entries,
        (matchTrigger { eng.state with messageContext := ctx } e.trigger message).2
          = true) →
      (engineProcessMessage evalFuel eng message ctx).2.isSome = true)
    ∧ (∀ (st st2 : EngineState) (entry : LexiconEntry),
        entry.conditions ≠ [] →
        processConditions evalFuel st entry.conditions = (st2, none) →
        entry.responses = [] →
        generateResponse evalFuel st entry = (st2, "")) := by
  constructor
  · intro hex
    unfold engineProcessMessage
    exact engineLoop_isSome evalFuel message eng.entries _ hex
  · intro st st2 entry hc hp hr
    have hce : entry.conditions.isEmpty = false := by
      cases hcond : entry.conditions with
      | nil => exact absurd hcond hc
      | cons a l => rfl
    have hre : entry.responses.isEmpty = true := by rw [hr]; rfl
    unfold generateResponse
    rw [hce]
    simp only [if_false, Bool.false_eq_true]
    rw [hp]
    simp [hre]

/-- C10 witness: a rule whose only condition guard is false, with no else
branch and no responses, still answers `some ""` on a matching message. -/
theorem C10_matched_always_some_witness :
    (engineProcessMessage 1
      ⟨[⟨"hi", [], [], ["如果:1==2", "x", "如果尾"], none, true⟩], {}⟩
      "hi" []).2.isSome = true := by
  exact (C10_matched_always_some 1
    ⟨[⟨"hi", [], [], ["如果:1==2", "x", "如果尾"], none, true⟩], {}⟩ "hi" []).1
    ⟨⟨"hi", [], [], ["如果:1==2", "x", "如果尾"], none, true⟩, by simp, rfl⟩

end Lch

namespace Lch

theorem managerPM_snd (evalFuel : Nat) (mgr : Manager) (message : String)
    (ctx : List (String × String)) :
    (managerProcessMessage evalFuel mgr message ctx).2
      = (managerLoop evalFuel message ctx mgr.enabledFiles mgr.engines).2 := rfl

theorem enginePM_snd (evalFuel : Nat) (eng : Engine) (message : String)
    (ctx : List (String × String)) :
    (engineProcessMessage evalFuel eng message ctx).2
      = (engineLoop evalFuel message eng.entries
          { eng.state with messageContext := ctx }).2 := rfl

/-- C1 counterexample: with two enabled files loaded in order, the first
file's rule matches `hi` and produces the empty response, yet the manager
goes on to evaluate the second file's rule and returns its response —
contradicting "once an earlier rule matches, no later rule (in the same or
a later file) is ever evaluated, regardless of what response text the
earlier match produces". -/
theorem C1_counterexample :
    (managerProcessMessage 1
      ⟨[("a.txt", ⟨[⟨"hi", [], [("A", "x")], [], none, true⟩], {}⟩),
        ("b.txt", ⟨[⟨"hi", ["hello"], [], [], none, true⟩], {}⟩)],
        ["a.txt", "b.txt"]⟩ "hi" []).2 = some "hello"
    ∧ (engineProcessMessage 1 ⟨[⟨"hi", [], [("A", "x")], [], none, true⟩], {}⟩
        "hi" []).2 = some ""
    ∧ (some "hello" : Option String) ≠ some "" :=
  ⟨rfl, rfl, by decide⟩

/-- C1 corrected: within one file, the first matching rule wins
unconditionally and later rules of that file are never evaluated (second
conjunct); across files, the manager returns the response of the first
enabled file whose engine answers with a non-empty string, independent of
all later files — but a file whose match produces an empty response does
not stop the scan (first conjunct's hypothesis allows exactly `none` or
`some ""` for earlier files). -/
theorem C1_first_match_amended (evalFuel : Nat) (message : String)
    (ctx : List (String × String)) :
    (∀ (pre : List (String × Engine)) (name : String) (eng : Engine)
       (post : List (String × Engine)) (enabled : List String) (r : String),
       (∀ p ∈ pre, enabled.contains p.1 = true →
          (engineProcessMessage evalFuel p.2 message ctx).2 = none ∨
          (engineProcessMessage evalFuel p.2 message ctx).2 = some "") →
       enabled.contains name = true →
       (engineProcessMessage evalFuel eng message ctx).2 = some r → r ≠ "" →
       (managerProcessMessage evalFuel ⟨pre ++ (name, eng) :: post, enabled⟩
          message ctx).2 = some r)
    ∧ (∀ (pre : List LexiconEntry) (e : LexiconEntry) (post : List LexiconEntry)
         (st : EngineState),
         (∀ e' ∈ pre, (matchTrigger st e'.trigger message).2 = false) →
         (matchTrigger st e.trigger message).2 = true →
         (engineLoop evalFuel message (pre ++ e :: post) st).2
           = some (generateResponse evalFuel
               (matchTrigger st e.trigger message).1 e).2) := by
  constructor
  · intro pre
    induction pre with
    | nil =>
      intro name eng post enabled r _ hen hresp hne
      rw [managerPM_snd]
      show (managerLoop evalFuel message ctx enabled ((name, eng) :: post)).2 = some r
      rw [managerLoop, hen]
      simp only [if_true]
      rw [hresp]
      simp [hne]
    | cons p0 pre ih =>
      intro name eng post enabled r hpre hen hresp hne
      rw [managerPM_snd]
      show (managerLoop evalFuel message ctx enabled
        ((p0 :: pre) ++ (name, eng) :: post)).2 = some r
      cases p0 with
      | mk n0 e0 =>
        simp only [List.cons_append]
        rw [managerLoop]
        cases h0 : enabled.contains n0 with
        | false =>
          simp only [h0, Bool.false_eq_true, if_false]
          have := ih name eng post enabled r
            (fun p hp => hpre p (List.mem_cons_of_mem _ hp)) hen hresp hne
          rw [managerPM_snd] at this
          exact this
        | true =>
          simp only [h0, if_true]
          rcases hpre (n0, e0) (List.mem_cons_self _ _) h0 with h | h
          · rw [h]
            have := ih name eng post enabled r
              (fun p hp => hpre p (List.mem_cons_of_mem _ hp)) hen hresp hne
            rw [managerPM_snd] at this
            exact this
          · rw [h]
            simp only [ne_eq, not_true_eq_false, reduceIte]
            have := ih name eng post enabled r
              (fun p hp => hpre p (List.mem_cons_of_mem _ hp)) hen hresp hne
            rw [managerPM_snd] at this
            exact this
  · intro pre e post st hpre he
    rw [engineLoop_first evalFuel message pre e post st hpre he]

/-- C1 witness: the manager scenario of the counterexample satisfies the
corrected statement — the first file answers `some ""`, so the second
file's `hello` is the result. -/
theorem C1_first_match_amended_witness :
    (managerProcessMessage 1
      ⟨[("a.txt", ⟨[⟨"hi", [], [("A", "x")], [], none, true⟩], {}⟩),
        ("b.txt", ⟨[⟨"hi", ["hello"], [], [], none, true⟩], {}⟩)],
        ["a.txt", "b.txt"]⟩ "hi" []).2 = some "hello" := by
  exact (C1_first_match_amended 1 "hi" []).1
    [("a.txt", ⟨[⟨"hi", [], [("A", "x")], [], none, true⟩], {}⟩)]
    "b.txt" ⟨[⟨"hi", ["hello"], [], [], none, true⟩], {}⟩ [] ["a.txt", "b.txt"]
    "hello"
    (by
      intro p hp _
      rw [List.mem_singleton] at hp
      subst hp
      exact Or.inr rfl)
    rfl rfl (by decide)

end Lch

namespace Lch

/-- C2 counterexample: a matched rule whose selected condition branch hits
`返回` (so `_process_conditions` yields `""`) but which also has a
non-empty `responses` list answers with the joined responses, not with
`Some("")` — the Python truthiness test `if response:` throws the empty
reply away. -/
theorem C2_counterexample :
    (engineProcessMessage 1
      ⟨[⟨"hi", ["hello"], [], ["如果:1==1", "返回", "如果尾"], none, true⟩], {}⟩
      "hi" []).2 = some "hello"
    ∧ (processConditions 1 ({} : EngineState)
        ["如果:1==1", "返回", "如果尾"]).2 = some ""
    ∧ (some "hello" : Option String) ≠ some "" :=
  ⟨rfl, rfl, by decide⟩

/-- C2 corrected: when the selected branch yields the explicit empty reply
(`_process_conditions` returns `""`), that reply survives to the caller
only if the rule's `responses` list is empty; otherwise `_generate_response`
falls back to the joined responses (with one substitution pass). -/
theorem C2_return_suppression_amended (evalFuel : Nat) (st st2 : EngineState)
    (entry : LexiconEntry)
    (hc : entry.conditions ≠ [])
    (hp : processConditions evalFuel st entry.conditions = (st2, some "")) :
    (entry.responses = [] → generateResponse evalFuel st entry = (st2, ""))
    ∧ (entry.responses ≠ [] →
       generateResponse evalFuel st entry
         = processVariablesAndFunctions st2 (joinNL entry.responses)) := by
  have hce : entry.conditions.isEmpty = false := by
    cases hcond : entry.conditions with
    | nil => exact absurd hcond hc
    | cons a l => rfl
  constructor
  · intro hr
    have hre : entry.responses.isEmpty = true := by rw [hr]; rfl
    unfold generateResponse
    rw [hce]
    simp only [Bool.false_eq_true, if_false]
    rw [hp]
    simp [hre]
  · intro hr
    have hre : entry.responses.isEmpty = false := by
      cases hresp : entry.responses with
      | nil => exact absurd hresp hr
      | cons a l => rfl
    unfold generateResponse
    rw [hce]
    simp only [Bool.false_eq_true, if_false]
    rw [hp]
    simp [hre]

/-- C2 witness: the rule of the counterexample with its responses removed
does deliver the empty reply. -/
theorem C2_return_suppression_amended_witness :
    generateResponse 1 ({} : EngineState)
      ⟨"hi", [], [], ["如果:1==1", "返回", "如果尾"], none, true⟩ = ({}, "") := by
  exact (C2_return_suppression_amended 1 {} {}
    ⟨"hi", [], [], ["如果:1==1", "返回", "如果尾"], none, true⟩
    (by simp) rfl).1 rfl

/-- C5 counterexample: for trigger `测试(.*) (.*)` and message
`测试 foo bar`, the first greedy group captures the text immediately after
`测试` including the separating space, so the template resolves to
`" foo-bar"`, not to the claimed `"foo-bar"`. -/
theorem C5_counterexample :
    (matchTrigger ({} : EngineState) "测试(.*) (.*)" "测试 foo bar").2 = true
    ∧ (processVariablesAndFunctions
        (matchTrigger ({} : EngineState) "测试(.*) (.*)" "测试 foo bar").1
        "%括号1%-%括号2%").2 = " foo-bar"
    ∧ (" foo-bar" : String) ≠ "foo-bar" :=
  ⟨rfl, rfl, by decide⟩

/-- C5 corrected: matching stores `括号1 = " foo"` (the greedy `(.*)`
keeps the space following `测试`) and `括号2 = "bar"`, and the template
`%括号1%-%括号2%` resolves to `" foo-bar"`, with a leading space. -/
theorem C5_capture_substitution_amended :
    (matchTrigger ({} : EngineState) "测试(.*) (.*)" "测试 foo bar").2 = true
    ∧ getVariableValue
        (matchTrigger ({} : EngineState) "测试(.*) (.*)" "测试 foo bar").1
        "括号1" = " foo"
    ∧ getVariableValue
        (matchTrigger ({} : EngineState) "测试(.*) (.*)" "测试 foo bar").1
        "括号2" = "bar"
    ∧ (processVariablesAndFunctions
        (matchTrigger ({} : EngineState) "测试(.*) (.*)" "测试 foo bar").1
        "%括号1%-%括号2%").2 = " foo-bar" :=
  ⟨rfl, rfl, rfl, rfl⟩

/-- C3 counterexample: a `$…$` sequence that reaches the text only as the
value of a `%var%` token IS executed by the code (the `$` pass runs over
the output of the `%` pass), while the spec's single interleaved scan
would leave it as literal text. -/
theorem C3_counterexample :
    (processVariablesAndFunctions
      ⟨[("v", "$Emoy 5$")], [], "", "", "", "", "", ""⟩ "%v%").2 = "[CQ:face,id=5]"
    ∧ (specSubstitutePass
        ⟨[("v", "$Emoy 5$")], [], "", "", "", "", "", ""⟩ "%v%").2 = "$Emoy 5$"
    ∧ ("[CQ:face,id=5]" : String) ≠ "$Emoy 5$" :=
  ⟨rfl, rfl, by decide⟩

/-- C3 corrected: the final substitution is two sequential passes — all
`%var%` tokens first, then all `$func$` tokens over the result.  Hence a
variable value of the shape `$f$` is executed as a function call by the
code (first two conjuncts: result and state are those of `_call_function`),
whereas the spec's interleaved single scan leaves it literal (third
conjunct). -/
theorem C3_two_pass_amended (st : EngineState) (name f : String)
    (h1 : ('%' : Char) ∉ name.data) (h2 : name ≠ "")
    (h3 : getVariableValue st name = "$" ++ f ++ "$")
    (h4 : ('$' : Char) ∉ f.data) (h5 : f ≠ "") :
    (processVariablesAndFunctions st ("%" ++ name ++ "%")).2 = (callFunction st f).2
    ∧ (processVariablesAndFunctions st ("%" ++ name ++ "%")).1 = (callFunction st f).1
    ∧ (specSubstitutePass st ("%" ++ name ++ "%")).2 = "$" ++ f ++ "$" := by
  have hd : ("%" ++ name ++ "%").data = [] ++ '%' :: (name.data ++ '%' :: []) := by
    simp [String.data_append]
  have hv := substVarsCore_token st [] name.data [] (by simp) h1 (data_ne_nil h2)
  rw [mk_data] at hv
  have hfd : ("$" ++ f ++ "$").data = [] ++ '$' :: (f.data ++ '$' :: []) := by
    simp [String.data_append]
  have hfunc := substFuncsCore_token st [] f.data [] (by simp) h4 (data_ne_nil h5)
  rw [mk_data] at hfunc
  have hall : processVariablesAndFunctions st ("%" ++ name ++ "%")
      = ((callFunction st f).1, (callFunction st f).2) := by
    show ((substFuncsCore st none
        (substVarsCore st none ("%" ++ name ++ "%").data)).1,
      String.mk (substFuncsCore st none
        (substVarsCore st none ("%" ++ name ++ "%").data)).2) = _
    rw [hd, hv, h3, hfd]
    simp only [List.nil_append]
    rw [show substVarsCore st none [] = [] from rfl]
    rw [List.append_nil]
    rw [show ([] : List Char) ++ '$' :: (f.data ++ '$' :: []) =
      '$' :: (f.data ++ '$' :: []) from rfl] at hfunc
    rw [hfunc]
    simp only [List.nil_append]
    rw [show ∀ s, substFuncsCore s none ([] : List Char) = (s, []) from fun s => rfl]
    simp [mk_data]
  refine ⟨by rw [hall], by rw [hall], ?_⟩
  show String.mk (specSubstCore st none ("%" ++ name ++ "%").data).2 = _
  rw [hd]
  simp only [List.nil_append]
  rw [show specSubstCore st none ('%' :: (name.data ++ '%' :: []))
      = specSubstCore st (some (true, [])) (name.data ++ '%' :: []) from by
    rw [specSubstCore]
    simp]
  rw [specSubstCore_varOpen st name.data [] [] h1 (fun _ => data_ne_nil h2)]
  simp only [List.reverse_nil, List.nil_append]
  rw [h3]
  rw [show specSubstCore st none ([] : List Char) = (st, []) from rfl]
  simp only [mk_data, List.append_nil]

/-- C3 witness: with `v = "$Emoy 5$"`, the code executes the call and the
spec-side pass does not. -/
theorem C3_two_pass_amended_witness :
    (processVariablesAndFunctions
      ⟨[("v", "$Emoy 5$")], [], "", "", "", "", "", ""⟩
      ("%" ++ "v" ++ "%")).2
      = (callFunction ⟨[("v", "$Emoy 5$")], [], "", "", "", "", "", ""⟩ "Emoy 5").2
    ∧ (specSubstitutePass
        ⟨[("v", "$Emoy 5$")], [], "", "", "", "", "", ""⟩
        ("%" ++ "v" ++ "%")).2 = "$" ++ "Emoy 5" ++ "$" := by
  have h := C3_two_pass_amended
    ⟨[("v", "$Emoy 5$")], [], "", "", "", "", "", ""⟩ "v" "Emoy 5"
    (by decide) (by decide) rfl (by decide) (by decide)
  exact ⟨h.1, h.2.2⟩

end Lch

namespace Lch

theorem evaluateCondition_succ (n : Nat) (st : EngineState) (e : String) :
    evaluateCondition (n + 1) st e
      = evalCondCore (fun s x => evaluateCondition n s x)
          (processVariablesAndFunctions st e).1
          (processVariablesAndFunctions st e).2 := rfl

/-- C8: condition evaluation on the substituted expression detects the
first operator in the fixed precedence `==`, `!=`, `<=`, `>=`, `<`, `>`,
`&`, `|`, splitting at its first occurrence: `==`/`!=` compare the trimmed
sides as strings, the four numeric comparisons parse both sides as floats
(any parse failure making the comparison false), `&` requires every
sub-clause true and `|` some sub-clause true (evaluated left to right with
short-circuit, each through a full recursive evaluation), and an
operator-free expression is true iff it parses as a non-zero float or,
failing that, lower-cases to one of `true`, `1`, `yes`. -/
theorem C8_condition_operator_semantics (n : Nat) (st st1 : EngineState)
    (e e' : String)
    (hsubst : processVariablesAndFunctions st e = (st1, e')) :
    (∀ l r, splitFirst "==" e' = some (l, r) →
       evaluateCondition (n + 1) st e = (st1, pyStrip l == pyStrip r))
    ∧ (splitFirst "==" e' = none →
       ∀ l r, splitFirst "!=" e' = some (l, r) →
       evaluateCondition (n + 1) st e = (st1, !(pyStrip l == pyStrip r)))
    ∧ (splitFirst "==" e' = none → splitFirst "!=" e' = none →
       ∀ l r, splitFirst "<=" e' = some (l, r) →
       evaluateCondition (n + 1) st e
         = (st1, floatCmp (fun a b => decide (a ≤ b)) l r))
    ∧ (splitFirst "==" e' = none → splitFirst "!=" e' = none →
       splitFirst "<=" e' = none →
       ∀ l r, splitFirst ">=" e' = some (l, r) →
       evaluateCondition (n + 1) st e
         = (st1, floatCmp (fun a b => decide (b ≤ a)) l r))
    ∧ (splitFirst "==" e' = none → splitFirst "!=" e' = none →
       splitFirst "<=" e' = none → splitFirst ">=" e' = none →
       ∀ l r, splitFirst "<" e' = some (l, r) →
       evaluateCondition (n + 1) st e
         = (st1, floatCmp (fun a b => decide (a < b)) l r))
    ∧ (splitFirst "==" e' = none → splitFirst "!=" e' = none →
       splitFirst "<=" e' = none → splitFirst ">=" e' = none →
       splitFirst "<" e' = none →
       ∀ l r, splitFirst ">" e' = some (l, r) →
       evaluateCondition (n + 1) st e
         = (st1, floatCmp (fun a b => decide (b < a)) l r))
    ∧ (splitFirst "==" e' = none → splitFirst "!=" e' = none →
       splitFirst "<=" e' = none → splitFirst ">=" e' = none →
       splitFirst "<" e' = none → splitFirst ">" e' = none →
       e'.data.contains '&' = true →
       evaluateCondition (n + 1) st e
         = (splitAllChar '&' [] e'.data).foldl
             (fun acc part =>
               if acc.2 then evaluateCondition n acc.1 (pyStrip (String.mk part))
               else acc)
             (st1, true))
    ∧ (splitFirst "==" e' = none → splitFirst "!=" e' = none →
       splitFirst "<=" e' = none → splitFirst ">=" e' = none →
       splitFirst "<" e' = none → splitFirst ">" e' = none →
       e'.data.contains '&' = false →
       e'.data.contains '|' = true →
       evaluateCondition (n + 1) st e
         = (splitAllChar '|' [] e'.data).foldl
             (fun acc part =>
               if acc.2 then acc
               else evaluateCondition n acc.1 (pyStrip (String.mk part)))
             (st1, false))
    ∧ (splitFirst "==" e' = none → splitFirst "!=" e' = none →
       splitFirst "<=" e' = none → splitFirst ">=" e' = none →
       splitFirst "<" e' = none → splitFirst ">" e' = none →
       e'.data.contains '&' = false →
       e'.data.contains '|' = false →
       evaluateCondition (n + 1) st e
         = (st1, match parseFloat (pyStrip e') with
                 | some v => decide (v ≠ 0)
                 | none => ["true", "1", "yes"].contains (pyLower (pyStrip e')))) := by
  rw [evaluateCondition_succ, hsubst]
  refine ⟨?_, ?_, ?_, ?_, ?_, ?_, ?_, ?_, ?_⟩
  · intro l r h1
    simp only [evalCondCore, h1]
  · intro h1 l r h2
    simp only [evalCondCore, h1, h2]
  · intro h1 h2 l r h3
    simp only [evalCondCore, h1, h2, h3]
  · intro h1 h2 h3 l r h4
    simp only [evalCondCore, h1, h2, h3, h4]
  · intro h1 h2 h3 h4 l r h5
    simp only [evalCondCore, h1, h2, h3, h4, h5]
  · intro h1 h2 h3 h4 h5 l r h6
    simp only [evalCondCore, h1, h2, h3, h4, h5, h6]
  · intro h1 h2 h3 h4 h5 h6 hamp
    simp only [evalCondCore, h1, h2, h3, h4, h5, h6, hamp, if_true]
  · intro h1 h2 h3 h4 h5 h6 hamp hbar
    simp only [evalCondCore, h1, h2, h3, h4, h5, h6, hamp, hbar,
      Bool.false_eq_true, if_false, if_true]
  · intro h1 h2 h3 h4 h5 h6 hamp hbar
    simp only [evalCondCore, h1, h2, h3, h4, h5, h6, hamp, hbar,
      Bool.false_eq_true, if_false]
    cases parseFloat (pyStrip e') <;> rfl

/-- C8 witness: `2<=10` is split at `<=` (no `==`/`!=` present) and both
sides parse as floats, giving a true comparison. -/
theorem C8_condition_operator_semantics_witness :
    evaluateCondition 1 ({} : EngineState) "2<=10" = ({}, true) := by
  have h := (C8_condition_operator_semantics 0 ({} : EngineState) {}
    "2<=10" "2<=10" rfl).2.2.1 rfl rfl "2" "10" rfl
  rw [h]
  rfl

end Lch

namespace Lch

theorem c4_data (expr : String) :
    ("如果:" ++ expr).data = '如' :: '果' :: ':' :: expr.data := by
  rw [String.data_append]
  rfl

theorem c4_strip (expr : String)
    (hs2 : expr.data.reverse.dropWhile isPySpace = expr.data.reverse) :
    pyStrip ("如果:" ++ expr) = "如果:" ++ expr := by
  cases hE : expr.data with
  | nil =>
    have hx : expr = "" := eq_empty_of_data_eq_nil hE
    subst hx
    rfl
  | cons c l =>
    unfold pyStrip
    rw [c4_data]
    rw [show ('如' :: '果' :: ':' :: expr.data).dropWhile isPySpace
        = '如' :: '果' :: ':' :: expr.data from rfl]
    rw [show ('如' :: '果' :: ':' :: expr.data).reverse
        = expr.data.reverse ++ [':', '果', '如'] from by simp]
    have hne : expr.data.reverse ≠ [] := by rw [hE]; simp
    rw [dropWhile_append_eq isPySpace expr.data.reverse [':', '果', '如'] hs2 hne]
    rw [List.reverse_append, List.reverse_reverse]
    rw [show ([':', '果', '如'] : List Char).reverse = ['如', '果', ':'] from rfl]
    rw [show (['如', '果', ':'] : List Char) ++ expr.data
        = '如' :: '果' :: ':' :: expr.data from rfl]
    rw [← c4_data expr, mk_data]

theorem c4_ne_empty (expr : String) : (("如果:" ++ expr) == "") = false := by
  apply beq_eq_false_iff_ne.mpr
  intro h
  have hd := congrArg String.data h
  rw [c4_data] at hd
  simp at hd

theorem c4_not_comment (expr : String) : isCommentLine ("如果:" ++ expr) = false := by
  unfold isCommentLine pyStartsWith
  rw [c4_data]
  rfl

theorem c4_starts_ruoguo (expr : String) :
    pyStartsWith ("如果:" ++ expr) "如果:" = true := by
  unfold pyStartsWith
  rw [c4_data]
  simp [List.isPrefixOf]

theorem c4_not_endif (expr : String) :
    pyStartsWith ("如果:" ++ expr) "如果尾" = false := by
  unfold pyStartsWith
  rw [c4_data]
  rfl

theorem c4_not_linevar (expr : String) :
    pyStartsWith ("如果:" ++ expr) "#->var:" = false := by
  unfold pyStartsWith
  rw [c4_data]
  rfl

theorem c4_not_trigger (expr : String) (i : Nat) (lines : List String) :
    looksLikeTrigger ("如果:" ++ expr) i lines = false := by
  unfold looksLikeTrigger
  rw [c4_starts_ruoguo]
  simp

theorem c4_isvardef_true (expr : String) (hx : expr.data.contains '%' = false) :
    isVariableDefinition ("如果:" ++ expr) = true := by
  unfold isVariableDefinition
  rw [c4_data]
  rw [show ('如' :: '果' :: ':' :: expr.data).contains '%'
      = expr.data.contains '%' from rfl, hx]
  rfl

theorem c4_isvardef_false (expr : String) (hx : expr.data.contains '%' = true) :
    isVariableDefinition ("如果:" ++ expr) = false := by
  unfold isVariableDefinition
  rw [c4_data]
  rw [show ('如' :: '果' :: ':' :: expr.data).contains '%'
      = expr.data.contains '%' from rfl, hx]
  rfl

theorem c4_splitvar (expr : String) :
    splitFirst ":" ("如果:" ++ expr) = some ("如果", expr) := by
  unfold splitFirst
  rw [c4_data]
  rw [show ":".data = [':'] from rfl]
  rw [show splitFirstAux [':'] ('如' :: '果' :: ':' :: expr.data)
      = some (['如', '果'], expr.data) from by
    simp [splitFirstAux, List.isPrefixOf]]
  simp [mk_data]

theorem c4_parsevar (expr : String) :
    parseVariableDefinition ("如果:" ++ expr) = ("如果", pyStrip expr) := by
  unfold parseVariableDefinition
  rw [c4_splitvar]
  show (pyStrip "如果", pyStrip expr) = ("如果", pyStrip expr)
  rfl

theorem c4i_data (expr : String) :
    ("if:" ++ expr).data = 'i' :: 'f' :: ':' :: expr.data := by
  rw [String.data_append]
  rfl

theorem c4i_ne_empty (expr : String) : (("if:" ++ expr) == "") = false := by
  apply beq_eq_false_iff_ne.mpr
  intro h
  have hd := congrArg String.data h
  rw [c4i_data] at hd
  simp at hd

theorem c4i_not_comment (expr : String) : isCommentLine ("if:" ++ expr) = false := by
  unfold isCommentLine pyStartsWith
  rw [c4i_data]
  rfl

theorem c4i_starts_if (expr : String) :
    pyStartsWith ("if:" ++ expr) "if:" = true := by
  unfold pyStartsWith
  rw [c4i_data]
  simp [List.isPrefixOf]

theorem c4i_not_ruoguo (expr : String) :
    pyStartsWith ("if:" ++ expr) "如果:" = false := by
  unfold pyStartsWith
  rw [c4i_data]
  rfl

theorem c4i_not_endif (expr : String) :
    pyStartsWith ("if:" ++ expr) "如果尾" = false := by
  unfold pyStartsWith
  rw [c4i_data]
  rfl

theorem c4i_not_linevar (expr : String) :
    pyStartsWith ("if:" ++ expr) "#->var:" = false := by
  unfold pyStartsWith
  rw [c4i_data]
  rfl

theorem c4i_not_trigger (expr : String) (i : Nat) (lines : List String) :
    looksLikeTrigger ("if:" ++ expr) i lines = false := by
  unfold looksLikeTrigger
  rw [c4i_starts_if]
  simp

theorem c4i_isvardef_true (expr : String) (hx : expr.data.contains '%' = false) :
    isVariableDefinition ("if:" ++ expr) = true := by
  unfold isVariableDefinition
  rw [c4i_data]
  rw [show ('i' :: 'f' :: ':' :: expr.data).contains '%'
      = expr.data.contains '%' from rfl, hx]
  rfl

theorem c4i_isvardef_false (expr : String) (hx : expr.data.contains '%' = true) :
    isVariableDefinition ("if:" ++ expr) = false := by
  unfold isVariableDefinition
  rw [c4i_data]
  rw [show ('i' :: 'f' :: ':' :: expr.data).contains '%'
      = expr.data.contains '%' from rfl, hx]
  rfl

theorem c4i_splitvar (expr : String) :
    splitFirst ":" ("if:" ++ expr) = some ("if", expr) := by
  unfold splitFirst
  rw [c4i_data]
  rw [show ":".data = [':'] from rfl]
  rw [show splitFirstAux [':'] ('i' :: 'f' :: ':' :: expr.data)
      = some (['i', 'f'], expr.data) from by
    simp [splitFirstAux, List.isPrefixOf]]
  simp [mk_data]

theorem c4i_parsevar (expr : String) :
    parseVariableDefinition ("if:" ++ expr) = ("if", pyStrip expr) := by
  unfold parseVariableDefinition
  rw [c4i_splitvar]
  show (pyStrip "if", pyStrip expr) = ("if", pyStrip expr)
  rfl

theorem setVar_nil (k v : String) : setVar [] k v = [(k, v)] := by
  unfold setVar lookupVar
  simp

theorem parseEntryLoop_end (lines : List String) (fuel i : Nat)
    (resp : List String) (vars : List (String × String)) (conds : List String)
    (hget : lines.get? i = none) :
    parseEntryLoop lines (fuel + 1) i resp vars conds
      = (resp.reverse, vars, conds, i) := by
  rw [parseEntryLoop, hget]

theorem parseEntryLoop_vardef_step (lines : List String) (fuel i : Nat)
    (resp : List String) (vars : List (String × String)) (conds : List String)
    (raw line : String)
    (hget : lines.get? i = some raw)
    (hstr : pyStrip raw = line)
    (hne : (line == "") = false)
    (hcom : isCommentLine line = false)
    (htrig : looksLikeTrigger line i lines = false)
    (hvar : isVariableDefinition line = true) :
    parseEntryLoop lines (fuel + 1) i resp vars conds
      = parseEntryLoop lines fuel (i + 1) resp
          (setVar vars (parseVariableDefinition line).1
            (parseVariableDefinition line).2) conds := by
  rw [parseEntryLoop, hget]
  simp only [hstr, hne, hcom, htrig, hvar, Bool.false_eq_true, if_false, if_true]

theorem parseEntryLoop_cond_step (lines : List String) (fuel i : Nat)
    (resp : List String) (vars : List (String × String)) (conds : List String)
    (raw line : String)
    (hget : lines.get? i = some raw)
    (hstr : pyStrip raw = line)
    (hne : (line == "") = false)
    (hcom : isCommentLine line = false)
    (htrig : looksLikeTrigger line i lines = false)
    (hvar : isVariableDefinition line = false)
    (hlv : pyStartsWith line "#->var:" = false)
    (hcond : (pyStartsWith line "如果:" || pyStartsWith line "if:") = true) :
    parseEntryLoop lines (fuel + 1) i resp vars conds
      = parseEntryLoop lines fuel (parseConditionBlock lines i).2 resp vars
          (conds ++ (parseConditionBlock lines i).1) := by
  rw [parseEntryLoop, hget]
  simp only [hstr, hne, hcom, htrig, hvar, hlv, hcond, Bool.false_eq_true,
    Bool.true_or, if_false, if_true]

theorem parseCondLoop_end (lines : List String) (fuel i : Nat) (acc : List String)
    (hget : lines.get? i = none) :
    parseCondLoop lines (fuel + 1) i acc = (acc.reverse, i) := by
  rw [parseCondLoop, hget]

theorem parseCondLoop_step (lines : List String) (fuel i : Nat) (acc : List String)
    (raw line : String)
    (hget : lines.get? i = some raw)
    (hstr : pyStrip raw = line)
    (hne : (line == "") = false)
    (hend : pyStartsWith line "如果尾" = false) :
    parseCondLoop lines (fuel + 1) i acc
      = parseCondLoop lines fuel (i + 1) (line :: acc) := by
  rw [parseCondLoop, hget]
  simp only [hstr, hne, hend, Bool.false_eq_true, Bool.or_self, if_false]

theorem parseCondLoop_acc (lines : List String) :
    ∀ (fuel i : Nat) (acc : List String),
    ∃ (tail : List String) (j : Nat),
      parseCondLoop lines fuel i acc = (acc.reverse ++ tail, j) := by
  intro fuel
  induction fuel with
  | zero =>
    intro i acc
    exact ⟨[], i, by rw [parseCondLoop]; simp⟩
  | succ n ih =>
    intro i acc
    cases hg : lines.get? i with
    | none => exact ⟨[], i, by rw [parseCondLoop, hg]; simp⟩
    | some raw =>
      cases hb : (pyStartsWith (pyStrip raw) "如果尾" || (pyStrip raw == "")) with
      | true =>
        refine ⟨[], i, ?_⟩
        rw [parseCondLoop, hg]
        simp only [hb, if_true]
        simp
      | false =>
        obtain ⟨tail, j, hjl⟩ := ih (i + 1) (pyStrip raw :: acc)
        refine ⟨pyStrip raw :: tail, j, ?_⟩
        rw [parseCondLoop, hg]
        simp only [hb, Bool.false_eq_true, if_false]
        rw [hjl]
        simp

end Lch

namespace Lch

/-- C4 counterexample: the body line `如果:1` (a conditional whose
expression contains no `%`) is classified by the parser as a VARIABLE
definition with key `如果` — `_is_variable_definition` is consulted before
the `如果:` check and its `^.{1,3}:` pattern accepts the line — so nothing
is stored in `conditions`, contradicting the claim for "whatever
expression follows the colon". -/
theorem C4_counterexample :
    parseEntry ["测试", "如果:1"] 0
      = (some ⟨"测试", [], [("如果", "1")], [], none, true⟩, 2)
    ∧ isVariableDefinition "如果:1" = true :=
  ⟨rfl, rfl⟩

/-- C4 corrected: at ANY position in a rule body (any index, any
surrounding lines, any accumulated responses/variables/conditions), a line
whose stripped text is `如果:EXPR` (first conjunct) or `if:EXPR` (second
conjunct) opens a conditional block — the body loop hands control to
`_parse_condition_block` and appends its lines to `conditions`, leaving
`responses` untouched — only when EXPR contains a `%` character (which
makes `_is_variable_definition` reject the line); when EXPR contains no
`%`, the line is instead recorded as a variable definition with key `如果`
resp. `if` and the stripped EXPR as value, again leaving `responses`
untouched.  The third conjunct shows the opened block stores the line
itself verbatim (stripped) as its first element. -/
theorem C4_condition_classification_amended (lines : List String)
    (fuel i : Nat) (resp : List String) (vars : List (String × String))
    (conds : List String) (raw expr : String)
    (hget : lines.get? i = some raw) :
    (pyStrip raw = "如果:" ++ expr →
       parseEntryLoop lines (fuel + 1) i resp vars conds
         = if expr.data.contains '%' then
             parseEntryLoop lines fuel (parseConditionBlock lines i).2 resp vars
               (conds ++ (parseConditionBlock lines i).1)
           else
             parseEntryLoop lines fuel (i + 1) resp
               (setVar vars "如果" (pyStrip expr)) conds)
    ∧ (pyStrip raw = "if:" ++ expr →
       parseEntryLoop lines (fuel + 1) i resp vars conds
         = if expr.data.contains '%' then
             parseEntryLoop lines fuel (parseConditionBlock lines i).2 resp vars
               (conds ++ (parseConditionBlock lines i).1)
           else
             parseEntryLoop lines fuel (i + 1) resp
               (setVar vars "if" (pyStrip expr)) conds)
    ∧ ((pyStrip raw = "如果:" ++ expr ∨ pyStrip raw = "if:" ++ expr) →
       ∃ (tail : List String) (k : Nat),
         parseConditionBlock lines i = (pyStrip raw :: tail, k)) := by
  refine ⟨?_, ?_, ?_⟩
  · intro hline
    cases hx : expr.data.contains '%' with
    | true =>
      rw [if_pos rfl]
      exact parseEntryLoop_cond_step lines fuel i resp vars conds raw
        ("如果:" ++ expr) hget hline (c4_ne_empty expr) (c4_not_comment expr)
        (c4_not_trigger expr i lines) (c4_isvardef_false expr hx)
        (c4_not_linevar expr) (by simp [c4_starts_ruoguo])
    | false =>
      rw [if_neg (by simp)]
      have h := parseEntryLoop_vardef_step lines fuel i resp vars conds raw
        ("如果:" ++ expr) hget hline (c4_ne_empty expr) (c4_not_comment expr)
        (c4_not_trigger expr i lines) (c4_isvardef_true expr hx)
      rw [c4_parsevar expr] at h
      exact h
  · intro hline
    cases hx : expr.data.contains '%' with
    | true =>
      rw [if_pos rfl]
      exact parseEntryLoop_cond_step lines fuel i resp vars conds raw
        ("if:" ++ expr) hget hline (c4i_ne_empty expr) (c4i_not_comment expr)
        (c4i_not_trigger expr i lines) (c4i_isvardef_false expr hx)
        (c4i_not_linevar expr) (by simp [c4i_starts_if])
    | false =>
      rw [if_neg (by simp)]
      have h := parseEntryLoop_vardef_step lines fuel i resp vars conds raw
        ("if:" ++ expr) hget hline (c4i_ne_empty expr) (c4i_not_comment expr)
        (c4i_not_trigger expr i lines) (c4i_isvardef_true expr hx)
      rw [c4i_parsevar expr] at h
      exact h
  · intro hline
    have hne : ((pyStrip raw) == "") = false := by
      rcases hline with h | h
      · rw [h]; exact c4_ne_empty expr
      · rw [h]; exact c4i_ne_empty expr
    have hend : pyStartsWith (pyStrip raw) "如果尾" = false := by
      rcases hline with h | h
      · rw [h]; exact c4_not_endif expr
      · rw [h]; exact c4i_not_endif expr
    unfold parseConditionBlock
    rw [parseCondLoop_step lines lines.length i [] raw (pyStrip raw)
      hget rfl hne hend]
    obtain ⟨tail, j, hj⟩ := parseCondLoop_acc lines lines.length (i + 1) [pyStrip raw]
    rw [hj]
    exact ⟨tail, j + 1, by simp⟩

/-- C4 witness: deep inside a five-line rule body, the line `如果:%QQ%==1`
(`%` present) is routed to the condition branch, and in another body the
unstripped line `" if: 123 "` (no `%`) becomes the variable definition
`if = 123`. -/
theorem C4_condition_classification_amended_witness :
    parseEntryLoop ["t", "hello", "如果:%QQ%==1", "回复", "如果尾"] (3 + 1) 2
        ["hello"] [] []
      = parseEntryLoop ["t", "hello", "如果:%QQ%==1", "回复", "如果尾"] 3
          (parseConditionBlock ["t", "hello", "如果:%QQ%==1", "回复", "如果尾"] 2).2
          ["hello"] []
          ([] ++ (parseConditionBlock ["t", "hello", "如果:%QQ%==1", "回复", "如果尾"] 2).1)
    ∧ parseEntryLoop ["t", " if: 123 "] (1 + 1) 1 [] [] []
      = parseEntryLoop ["t", " if: 123 "] 1 (1 + 1) []
          (setVar [] "if" (pyStrip " 123")) [] := by
  constructor
  · have h := (C4_condition_classification_amended
      ["t", "hello", "如果:%QQ%==1", "回复", "如果尾"] 3 2 ["hello"] [] []
      "如果:%QQ%==1" "%QQ%==1" rfl).1 rfl
    rw [if_pos (by decide)] at h
    exact h
  · have h := (C4_condition_classification_amended ["t", " if: 123 "] 1 1 [] [] []
      " if: 123 " " 123" rfl).2.1 rfl
    rw [if_neg (by decide)] at h
    exact h

end Lch

namespace Lch

/-- C6 witness: with `a = "%other%"`, the template `x%a%y` substitutes to
the literal text `x%other%y` — the inserted `%other%` is not expanded. -/
theorem C6_single_pass_substitution_witness :
    (processVariablesAndFunctions
      ⟨[("a", "%other%"), ("other", "BAD")], [], "", "", "", "", "", ""⟩
      ("x" ++ "%" ++ "a" ++ "%" ++ "y")).2 = "x%other%y" := by
  have h := C6_single_pass_substitution
    ⟨[("a", "%other%"), ("other", "BAD")], [], "", "", "", "", "", ""⟩
    "x" "a" "y" (by decide) (by decide) (by decide)
  rw [h.2 (by decide)]
  rfl

end Lch
